import Mathlib

/-!
Verification development for the Polymarket order service (`main.py`).

The Python code is shallowly embedded:
* JSON / Python values are modelled by the inductive `PyVal`;
* `json.loads` is modelled by an executable fuel-based parser `jsonLoads`
  covering null / booleans / numbers / strings (with escapes) / arrays /
  objects, full-input consumption, and rejection of trailing commas,
  matching the strict decoder that `json.loads` uses;
* `requests` calls and the `py-clob-client` trading client are modelled as
  oracle arguments describing the outcome of the external call;
* Python floats are modelled by `Rat`; `round(x, 2)` is modelled by exact
  round-half-to-even on rationals (the one claim whose truth depends on
  binary double representation is settled separately);
* an uncaught Python exception (IndexError, AttributeError, ValueError,
  RuntimeError) is the `HErr.pyExn` constructor, distinct from a raised
  `HTTPException` which carries a status code and detail string.
-/

set_option maxRecDepth 4000

/-- A Python value as produced by `json.loads` or held in request fields. -/
inductive PyVal where
  | none
  | boolV (b : Bool)
  | intV (n : Int)
  | floatV (q : Rat)
  | strV (s : String)
  | listV (xs : List PyVal)
  | dictV (fields : List (String × PyVal))

/-- Single-quote character, kept out of string literals. -/
def sQuote : String := String.mk [Char.ofNat 39]

/-- Opening brace character. -/
def lbrace : Char := Char.ofNat 123

/-- Closing brace character. -/
def rbrace : Char := Char.ofNat 125

/-- Python `str.strip` on a character list (ASCII whitespace). -/
def stripChars (l : List Char) : List Char :=
  ((l.dropWhile Char.isWhitespace).reverse.dropWhile Char.isWhitespace).reverse

/-- Python `str.strip` (modelled for ASCII whitespace). -/
def pyStrip (s : String) : String := String.mk (stripChars s.data)

/-- ASCII lower-casing of one character, modelling `str.lower` on the
ASCII inputs this service handles. -/
def asciiLower (c : Char) : Char :=
  if 65 ≤ c.toNat ∧ c.toNat ≤ 90 then Char.ofNat (c.toNat + 32) else c

/-- ASCII upper-casing of one character, modelling `str.upper`. -/
def asciiUpper (c : Char) : Char :=
  if 97 ≤ c.toNat ∧ c.toNat ≤ 122 then Char.ofNat (c.toNat - 32) else c

/-- Python `str.lower` (ASCII model). -/
def pyLower (s : String) : String := String.mk (s.data.map asciiLower)

/-- Python `str.upper` (ASCII model). -/
def pyUpper (s : String) : String := String.mk (s.data.map asciiUpper)

/-- JSON whitespace skipping (space, tab, newline, carriage return),
as in the strict `json` decoder. -/
def skipWs : List Char → List Char
  | [] => []
  | c :: cs =>
    if c = ' ' ∨ c = '\t' ∨ c = '\n' ∨ c = '\r' then skipWs cs else c :: cs

/-- Exact rational negation, stated through `mkRat` so that the kernel
can evaluate it (the Batteries arithmetic on `Rat` is irreducible). -/
def qneg (a : Rat) : Rat := mkRat (-a.num) a.den

/-- Exact rational addition (kernel-reducible). -/
def qadd (a b : Rat) : Rat := mkRat (a.num * b.den + b.num * a.den) (a.den * b.den)

/-- Exact rational subtraction (kernel-reducible). -/
def qsub (a b : Rat) : Rat := qadd a (qneg b)

/-- Exact rational multiplication (kernel-reducible). -/
def qmul (a b : Rat) : Rat := mkRat (a.num * b.num) (a.den * b.den)

/-- Exact rational division (kernel-reducible; division by zero gives 0). -/
def qdiv (a b : Rat) : Rat :=
  if 0 ≤ b.num then mkRat (a.num * b.den) (a.den * b.num.natAbs)
  else mkRat (-(a.num * b.den)) (a.den * b.num.natAbs)

/-- Value of a hexadecimal digit. -/
def hexVal (c : Char) : Option Nat :=
  if '0' ≤ c ∧ c ≤ '9' then some (c.toNat - 48)
  else if 'a' ≤ c ∧ c ≤ 'f' then some (c.toNat - 87)
  else if 'A' ≤ c ∧ c ≤ 'F' then some (c.toNat - 55)
  else Option.none

/-- Single-character JSON string escapes. -/
def escChar (c : Char) : Option Char :=
  if c = '"' then some '"'
  else if c = '\\' then some '\\'
  else if c = '/' then some '/'
  else if c = 'b' then some (Char.ofNat 8)
  else if c = 'f' then some (Char.ofNat 12)
  else if c = 'n' then some '\n'
  else if c = 'r' then some '\r'
  else if c = 't' then some '\t'
  else Option.none

/-- Parse the body of a JSON string after the opening quote; returns the
decoded characters and the remaining input.  Raw control characters are
rejected, as in the strict decoder.  Surrogate-pair combination for
`\u` escapes is not modelled. -/
def parseStrBody : List Char → Option (List Char × List Char)
  | [] => Option.none
  | c :: rest =>
    if c = '"' then some ([], rest)
    else if c = '\\' then
      match rest with
      | 'u' :: h1 :: h2 :: h3 :: h4 :: rest2 =>
        (match hexVal h1, hexVal h2, hexVal h3, hexVal h4 with
         | some a, some b, some c2, some d =>
           (parseStrBody rest2).map
             (fun p => (Char.ofNat (((a * 16 + b) * 16 + c2) * 16 + d) :: p.1, p.2))
         | _, _, _, _ => Option.none)
      | e :: rest2 =>
        (match escChar e with
         | some ch => (parseStrBody rest2).map (fun p => (ch :: p.1, p.2))
         | Option.none => Option.none)
      | [] => Option.none
    else if c.toNat < 32 then Option.none
    else (parseStrBody rest).map (fun p => (c :: p.1, p.2))

/-- Take a maximal run of decimal digits. -/
def takeDigits : List Char → (List Char × List Char)
  | [] => ([], [])
  | c :: cs =>
    if c.isDigit then
      let p := takeDigits cs
      (c :: p.1, p.2)
    else ([], c :: cs)

/-- Natural number denoted by a digit run. -/
def digitsToNat (l : List Char) : Nat :=
  l.foldl (fun acc c => acc * 10 + (c.toNat - 48)) 0

/-- Parse a JSON number (integer part per the JSON grammar: `0` or a
nonzero-led digit run; optional fraction; optional exponent).  Integers
without fraction or exponent decode to `intV`, others to `floatV`,
matching `json.loads`. -/
def parseNum (cs : List Char) : Option (PyVal × List Char) :=
  let (neg, cs1) :=
    match cs with
    | '-' :: rest => (true, rest)
    | _ => (false, cs)
  match cs1 with
  | '0' :: rest => parseNumTail neg 0 rest
  | c :: _ =>
    if c.isDigit ∧ c ≠ '0' then
      let p := takeDigits cs1
      parseNumTail neg (digitsToNat p.1) p.2
    else Option.none
  | [] => Option.none
where
  /-- Fraction and exponent of a JSON number, after the integer part. -/
  parseNumTail (neg : Bool) (ip : Nat) (cs : List Char) : Option (PyVal × List Char) :=
    let (frac, cs2) :=
      match cs with
      | '.' :: rest =>
        let p := takeDigits rest
        if p.1 = [] then (Option.none, cs)
        else (some p.1, p.2)
      | _ => (Option.none, cs)
    match frac with
    | Option.none =>
      -- no fraction; check for exponent
      (match cs2 with
       | 'e' :: _ | 'E' :: _ => parseExp neg ip 0 [] cs2
       | _ =>
         let v : Int := if neg then -(ip : Int) else (ip : Int)
         some (.intV v, cs2))
    | some f => parseExp neg ip f.length f cs2
  /-- Optional exponent; `fd` fractional digits are already consumed. -/
  parseExp (neg : Bool) (ip : Nat) (fd : Nat) (f : List Char) (cs : List Char) :
      Option (PyVal × List Char) :=
    let mant : Rat := qadd (mkRat ip 1) (mkRat (digitsToNat f) (10 ^ fd))
    let mant := if neg then qneg mant else mant
    match cs with
    | 'e' :: rest | 'E' :: rest =>
      let (eneg, cs3) :=
        match rest with
        | '-' :: r => (true, r)
        | '+' :: r => (false, r)
        | _ => (false, rest)
      let p := takeDigits cs3
      if p.1 = [] then Option.none
      else
        let e := digitsToNat p.1
        let v : Rat := if eneg then qdiv mant (mkRat (10 ^ e) 1) else qmul mant (mkRat (10 ^ e) 1)
        some (.floatV v, p.2)
    | _ =>
      if fd = 0 then Option.none else some (.floatV mant, cs)

/-- Parse one JSON value.  Fuel-based recursion; every recursive call
is on a strictly shorter input, so fuel equal to the input length
suffices.  Array and object tails are parsed by re-entering the
function with the opening bracket re-attached; a lookahead guard
rejects trailing commas, as `json.loads` does.  The head character is
dispatched by `if` comparisons so that the branches stay rewritable in
proofs. -/
def parseVal : Nat → List Char → Option (PyVal × List Char)
  | 0, _ => Option.none
  | Nat.succ f, cs0 =>
    match skipWs cs0 with
    | [] => Option.none
    | c :: rest =>
      if c = '"' then (parseStrBody rest).map (fun p => (.strV (String.mk p.1), p.2))
      else if c = '[' then
        match skipWs rest with
        | [] => Option.none
        | r0 :: r2 =>
          if r0 = ']' then some (.listV [], r2)
          else
            match parseVal f rest with
            | Option.none => Option.none
            | some (v, r1) =>
              match skipWs r1 with
              | [] => Option.none
              | s0 :: r3 =>
                if s0 = ',' then
                  match skipWs r3 with
                  | [] => Option.none
                  | t0 :: _ =>
                    if t0 = ']' then Option.none  -- trailing comma
                    else
                      match parseVal f ('[' :: r3) with
                      | some (.listV vs, r4) => some (.listV (v :: vs), r4)
                      | _ => Option.none
                else if s0 = ']' then some (.listV [v], r3)
                else Option.none
      else if c = 'n' then
        (match rest with
         | 'u' :: 'l' :: 'l' :: r => some (.none, r)
         | _ => Option.none)
      else if c = 't' then
        (match rest with
         | 'r' :: 'u' :: 'e' :: r => some (.boolV true, r)
         | _ => Option.none)
      else if c = 'f' then
        (match rest with
         | 'a' :: 'l' :: 's' :: 'e' :: r => some (.boolV false, r)
         | _ => Option.none)
      else if c = lbrace then
        match skipWs rest with
        | [] => Option.none
        | d :: r1 =>
          if d = rbrace then some (.dictV [], r1)
          else if d = '"' then
            match parseStrBody r1 with
            | Option.none => Option.none
            | some (k, r2) =>
              match skipWs r2 with
              | [] => Option.none
              | e0 :: r3 =>
                if e0 = ':' then
                  match parseVal f r3 with
                  | Option.none => Option.none
                  | some (v, r4) =>
                    match skipWs r4 with
                    | [] => Option.none
                    | e1 :: r5 =>
                      if e1 = ',' then
                        match skipWs r5 with
                        | [] => Option.none
                        | g0 :: _ =>
                          if g0 = '"' then
                            match parseVal f (lbrace :: r5) with
                            | some (.dictV fs, r6) =>
                              some (.dictV ((String.mk k, v) :: fs), r6)
                            | _ => Option.none
                          else Option.none  -- trailing comma or bad key
                      else if e1 = rbrace then some (.dictV [(String.mk k, v)], r5)
                      else Option.none
                else Option.none
          else Option.none
      else if c = '-' ∨ c.isDigit then parseNum (c :: rest)
      else Option.none

/-- `json.loads`: parse a complete JSON document; anything but whitespace
after the value is an error (Python raises `Extra data`). -/
def jsonLoads (s : String) : Option PyVal :=
  match parseVal (s.data.length + 1) s.data with
  | some (v, rest) => if skipWs rest = [] then some v else Option.none
  | Option.none => Option.none

/-- A character that needs no escaping inside a JSON string literal. -/
def jsonNiceChar (c : Char) : Prop :=
  c ≠ '"' ∧ c ≠ '\\' ∧ 32 ≤ c.toNat

instance (c : Char) : Decidable (jsonNiceChar c) := by
  unfold jsonNiceChar
  exact inferInstance

/-- Body of the JSON encoding of a list of strings (character level):
quoted items separated by commas, closing bracket included. -/
def encStrsBody : List (List Char) → List Char
  | [] => [']']
  | [x] => '"' :: (x ++ '"' :: [']'])
  | x :: xs => '"' :: (x ++ '"' :: ',' :: encStrsBody xs)

/-- JSON encoding of a list of strings (character level). -/
def encStrs (ls : List (List Char)) : List Char := '[' :: encStrsBody ls

/-- JSON encoding of a list of strings, e.g.
`jsonEncodeStrList ["Yes", "No"]` is the string `["Yes","No"]`.  Valid
for strings of characters needing no escapes. -/
def jsonEncodeStrList (l : List String) : String :=
  String.mk (encStrs (l.map String.data))

/-- Comma-splitting with strip-and-drop-empties:
`[s.strip() for s in v.split(",") if s.strip()]`. -/
def commaParts (s : String) : List String :=
  (((s.data.splitOn ',').map (fun cs => pyStrip (String.mk cs))).filter (fun t => t ≠ ""))

/-- `_as_list` from `main.py`: `None` becomes `[]`; a list is returned
unchanged; a string is JSON-decoded (a decoded list is returned, any
other decoded value gives `[]`) and on a JSON decode error is split on
commas, stripping items and dropping empty ones; every other value
gives `[]`. -/
def as_list : PyVal → List PyVal
  | .none => []
  | .listV xs => xs
  | .strV s =>
    (match jsonLoads s with
     | some (.listV xs) => xs
     | some _ => []
     | Option.none => (commaParts s).map (fun t => .strV t))
  | _ => []

/-- Python truthiness for the values this service inspects. -/
def pyTruthy : PyVal → Bool
  | .none => false
  | .boolV b => b
  | .intV n => n != 0
  | .floatV q => q != 0
  | .strV s => s != ""
  | .listV xs => !xs.isEmpty
  | .dictV fs => !fs.isEmpty

/-- Python `a or b` for the truthiness chain on record fields. -/
def pyOr (a b : PyVal) : PyVal := if pyTruthy a then a else b

/-- Python `a or b` on lists (a list is truthy iff non-empty). -/
def pyOrList (a b : List PyVal) : List PyVal := if a.isEmpty then b else a

/-- Python float repr for a rational carried in a `floatV`.  Exact only
for values with a finite decimal expansion; no claim depends on it. -/
def floatRepr (q : Rat) : String :=
  let n : Int := Rat.floor (qmul q (mkRat 1000000 1))
  toString (n / 1000000) ++ "." ++ toString ((n % 1000000).natAbs)

mutual

/-- Python `repr` of a value.  String escaping inside `repr` is not
modelled. -/
def pyRepr : PyVal → String
  | .none => "None"
  | .boolV b => if b then "True" else "False"
  | .intV n => toString n
  | .floatV q => floatRepr q
  | .strV s => sQuote ++ s ++ sQuote
  | .listV xs => "[" ++ String.intercalate ", " (pyReprList xs) ++ "]"
  | .dictV fs => "\x7b" ++ String.intercalate ", " (pyReprFields fs) ++ "\x7d"

/-- `repr` of the elements of a list. -/
def pyReprList : List PyVal → List String
  | [] => []
  | x :: xs => pyRepr x :: pyReprList xs

/-- `repr` of the entries of a dict. -/
def pyReprFields : List (String × PyVal) → List String
  | [] => []
  | kv :: fs => (sQuote ++ kv.1 ++ sQuote ++ ": " ++ pyRepr kv.2) :: pyReprFields fs

end

/-- Python `str` on a value: identity on strings, `repr`-like otherwise. -/
def pyStr (v : PyVal) : String :=
  match v with
  | .strV s => s
  | v => pyRepr v

/-- Python `float(x)` on a string: strip, optional sign, digits with an
optional decimal point (at least one digit overall). Exponents and
`inf`/`nan` are not modelled; no claim exercises them. -/
def parseFloatStr (s : String) : Option Rat :=
  let cs := stripChars s.data
  let (neg, cs1) :=
    match cs with
    | '-' :: rest => (true, rest)
    | '+' :: rest => (false, rest)
    | _ => (false, cs)
  let p := takeDigits cs1
  let (ipart, cs2) := p
  match cs2 with
  | '.' :: rest =>
    let q := takeDigits rest
    if q.2 ≠ [] then Option.none
    else if ipart = [] ∧ q.1 = [] then Option.none
    else
      let v : Rat := qadd (mkRat (digitsToNat ipart) 1) (mkRat (digitsToNat q.1) (10 ^ q.1.length))
      some (if neg then qneg v else v)
  | [] =>
    if ipart = [] then Option.none
    else some (if neg then qneg (mkRat (digitsToNat ipart) 1) else mkRat (digitsToNat ipart) 1)
  | _ => Option.none

/-- Python `float(p)` as used on the `outcomePrices` entries. -/
def pyFloat : PyVal → Option Rat
  | .intV n => some (n : Rat)
  | .floatV q => some q
  | .boolV b => some (if b then 1 else 0)
  | .strV s => parseFloatStr s
  | _ => Option.none

/-- An error surfaced by a request handler: either a raised
`HTTPException` with status code and detail, or an uncaught Python
exception (which FastAPI turns into a bare 500). -/
inductive HErr where
  | http (code : Nat) (detail : String)
  | pyExn (kind : String)

/-- String form of a `fastapi.HTTPException`, as interpolated when one
is caught and re-wrapped (`starlette` renders `"{status_code}: {detail}"`). -/
def strHTTPException (code : Nat) (detail : String) : String :=
  toString code ++ ": " ++ detail

/-- Environment-derived configuration of the service (`main.py` top). -/
structure Config where
  private_key : String
  api_key : String
  clob_host : String
  chain_id : Int
  dry_run : Bool
  sheets_secret : String
  signature_type : Int
  polymarket_proxy : String

/-- Python `s.startswith(p)`. -/
def startsWith (s p : String) : Bool := p.data.isPrefixOf s.data

/-- `_assert_trading_ready` from `main.py`: each violation raises a
`RuntimeError`, which no handler catches. -/
def assert_trading_ready (c : Config) : Except String Unit :=
  if c.private_key = "" then
    .error "PRIVATE_KEY missing in .env"
  else if ¬ startsWith c.private_key "0x" ∨ c.private_key.length ≠ 66 then
    .error "PRIVATE_KEY must be a 32-byte hex key prefixed with 0x (length 66)."
  else if c.chain_id ≠ 137 ∧ c.chain_id ≠ 80002 ∧ c.chain_id ≠ 80001 then
    .error ("Unexpected CHAIN_ID=" ++ toString c.chain_id ++
      ". Expected 137 (Polygon mainnet) or testnets 80001/80002.")
  else if c.polymarket_proxy = "" ∨ ¬ startsWith c.polymarket_proxy "0x" ∨
      c.polymarket_proxy.length ≠ 42 then
    .error "POLYMARKET_PROXY missing/invalid in .env (0x address from your Polymarket profile)."
  else if c.signature_type ≠ 1 ∧ c.signature_type ≠ 2 then
    .error "SIGNATURE_TYPE must be 1 (Magic/email) or 2 (browser wallet)."
  else .ok ()

/-- `dict.get(k)`: the value stored under `k`, if the key is present. -/
def dget (fields : List (String × PyVal)) (k : String) : Option PyVal :=
  (fields.find? (fun kv => kv.1 = k)).map (fun kv => kv.2)

/-- `m.get(k)` with default `None`. -/
def dgetN (fields : List (String × PyVal)) (k : String) : PyVal :=
  (dget fields k).getD .none

/-- `m.get(k, d)` with an explicit default. -/
def dgetD (fields : List (String × PyVal)) (k : String) (d : PyVal) : PyVal :=
  (dget fields k).getD d

/-- The `best` record assembled by `resolve_token_id_via_gamma` from one
market dict. -/
structure BestRecord where
  slug : PyVal
  question : PyVal
  outcomes : List PyVal
  token_ids : List String
  prices : List Rat


/-- Decoded outcome-name list of a market record:
`_as_list(m.get("outcomes")) or _as_list(m.get("outcomeNames")) or
_as_list(m.get("shortOutcomes"))`. -/
def recordOutcomes (fields : List (String × PyVal)) : List PyVal :=
  pyOrList (as_list (dgetN fields "outcomes"))
    (pyOrList (as_list (dgetN fields "outcomeNames"))
      (as_list (dgetN fields "shortOutcomes")))

/-- Decoded token-id list of a market record. -/
def recordTokenIds (fields : List (String × PyVal)) : List PyVal :=
  as_list (dgetN fields "clobTokenIds")

/-- Build the `best` dict from one market record, or `none` when the
record has no token ids (`if token_ids:` fails and the loop continues).
`float(p)` on a malformed price entry raises an uncaught `ValueError`. -/
def mk_best (fields : List (String × PyVal)) : Except HErr (Option BestRecord) :=
  let outcomes := recordOutcomes fields
  let token_ids := recordTokenIds fields
  let prices := as_list (dgetN fields "outcomePrices")
  if token_ids.isEmpty then .ok Option.none
  else
    match if prices.isEmpty then some [] else prices.mapM pyFloat with
    | Option.none => .error (.pyExn "ValueError")
    | some ps =>
      .ok (some
        { slug := dgetD fields "slug" (.strV "")
          question := pyOr (dgetN fields "question") (pyOr (dgetN fields "title") (.strV "(no title)"))
          outcomes := outcomes
          token_ids := token_ids.map pyStr
          prices := ps })

/-- The record-scanning loop: the first record whose decoded token-id
list is non-empty becomes `best`; `m.get` on a non-dict element raises
an uncaught `AttributeError`. -/
def pick_best : List PyVal → Except HErr (Option BestRecord)
  | [] => .ok Option.none
  | m :: rest =>
    match m with
    | .dictV fields =>
      (match mk_best fields with
       | .error e => .error e
       | .ok (some b) => .ok (some b)
       | .ok Option.none => pick_best rest)
    | _ => .error (.pyExn "AttributeError")

/-- The resolved market info returned by `resolve_token_id_via_gamma`. -/
structure MarketInfo where
  token_id : String
  market_slug : PyVal
  question : PyVal
  outcome_index : Nat
  outcome_name : PyVal


/-- The outcome-name list used for matching: an empty decoded list
defaults to `["Yes", "No"]`. -/
def effNames (outcomes : List PyVal) : List PyVal :=
  if outcomes.isEmpty then [.strV "Yes", .strV "No"] else outcomes

/-- Index of the first name whose `str(n).strip().lower()` equals the
stripped-and-lowered query. -/
def nameIdx (names : List PyVal) (outcome_name : String) : Option Nat :=
  let target := pyLower (pyStrip outcome_name)
  names.findIdx? (fun n => pyLower (pyStrip (pyStr n)) = target)

/-- The 404 detail listing the available outcome names. -/
def outcomeNotFoundMsg (outcome_name slug : String) (names : List PyVal) : String :=
  "Outcome " ++ sQuote ++ outcome_name ++ sQuote ++ " not found for slug " ++
    sQuote ++ slug ++ sQuote ++ ". Available: " ++
    String.intercalate ", " (names.map pyStr)

/-- The outcome-matching tail of `resolve_token_id_via_gamma` (lines
205-227): case-insensitive exact match against the (defaulted) name
list; no match raises a 404 `HTTPException`; a matched index beyond the
token-id list raises an uncaught `IndexError`. -/
def selectOutcome (slug : String) (best : BestRecord) (outcome_name : String) :
    Except HErr MarketInfo :=
  let names := effNames best.outcomes
  match nameIdx names outcome_name with
  | Option.none => .error (.http 404 (outcomeNotFoundMsg outcome_name slug names))
  | some i =>
    match best.token_ids.get? i with
    | Option.none => .error (.pyExn "IndexError")
    | some tid =>
      .ok
        { token_id := tid
          market_slug := best.slug
          question := best.question
          outcome_index := i
          outcome_name := (names.getD i .none) }

/-- Outcome of the `requests.get` call to the Gamma API, as seen by the
caller of `_http_get`: a network failure (already wrapped into a 502
`HTTPException` by `_http_get`) or a response with status, decoded JSON
body and raw text. -/
inductive GammaHttp where
  | netExn (e : String)
  | httpResp (status : Nat) (body : PyVal) (text : String)

/-- The Gamma markets URL for a slug (quoting not modelled). -/
def gammaUrl (slug : String) : String :=
  "https://gamma-api.polymarket.com/markets?slug=" ++ slug

/-- 404 detail when the directory response is empty or not a list. -/
def noMarketsMsg (slug : String) : String :=
  "No markets returned for slug " ++ sQuote ++ slug ++ sQuote

/-- 404 detail when no record carries token ids. -/
def noTokenIdsMsg (slug : String) : String :=
  "Could not find outcome token IDs for slug " ++ sQuote ++ slug ++ sQuote

/-- `resolve_token_id_via_gamma` from `main.py`, with the single
outbound HTTP call supplied as an oracle. -/
def resolve_token_id_via_gamma (slug outcome_name : String) (r : GammaHttp) :
    Except HErr MarketInfo :=
  if slug = "" then .error (.http 400 "slug is required when token_id is not provided.")
  else
    match r with
    | .netExn e => .error (.http 502 ("Network error to " ++ gammaUrl slug ++ ": " ++ e))
    | .httpResp status body text =>
      if status ≠ 200 then
        .error (.http 502 ("Gamma API error " ++ toString status ++ ": " ++ text.take 300))
      else if ¬ pyTruthy body then .error (.http 404 (noMarketsMsg slug))
      else
        match body with
        | .listV ms =>
          (match pick_best ms with
           | .error e => .error e
           | .ok Option.none => .error (.http 404 (noTokenIdsMsg slug))
           | .ok (some best) => selectOutcome slug best outcome_name)
        | _ => .error (.http 404 (noMarketsMsg slug))

/-- Round to the nearest integer, ties to even, on exact rationals —
the behaviour of Python `round` at the level of real numbers.  (The
interaction with binary floating point representation is outside this
embedding.) -/
def rheInt (x : Rat) : Int :=
  let f : Int := x.floor
  let r : Rat := qsub x (mkRat f 1)
  if r < mkRat 1 2 then f
  else if mkRat 1 2 < r then f + 1
  else if f % 2 = 0 then f else f + 1

/-- Python `round(x, 2)` on exact rationals. -/
def pyRound2 (x : Rat) : Rat := mkRat (rheInt (qmul x (mkRat 100 1))) 100

/-- `_normalize_price` from `main.py`: convert cents to a probability
and quantize to the 0.01 tick. -/
def normalize_price (prob_cents : Rat) : Rat := pyRound2 (qdiv prob_cents (mkRat 100 1))

/-- Python `"%.2f"`-style formatting of a non-negative amount, used in
the notional error message. -/
def fmt2 (x : Rat) : String :=
  let n : Int := rheInt (qmul x (mkRat 100 1))
  let cents := (n % 100).natAbs
  toString (n / 100) ++ "." ++ (if cents < 10 then "0" else "") ++ toString cents

/-- A raw `/place_order` body before validation. -/
structure RawPlaceOrder where
  token_id : Option String
  slug : Option String
  outcome : Option String
  side : String
  price_cents : Rat
  size : Rat
  client_tag : Option String

/-- A validated `PlaceOrderIn` (the pydantic model after validation). -/
structure PlaceOrderIn where
  token_id : Option String
  slug : Option String
  outcome : Option String
  side : String
  price_cents : Rat
  size : Rat
  client_tag : Option String

/-- A pydantic validation failure (FastAPI answers 422). -/
inductive ValErr where
  | side_literal     -- the `Literal["BUY", "SELL"]` annotation rejected the value
  | side_invalid     -- the `v_side` validator rejected it ("side must be BUY or SELL")
  | price_range      -- "price_cents must be between 0.5 and 99.5"
  | size_positive    -- "size must be > 0"
  deriving DecidableEq, Repr

/-- The `v_side` field validator exactly as written in `main.py`:
upper-case, then require membership in BUY/SELL. -/
def v_side (v : String) : Except ValErr String :=
  let v2 := pyUpper v
  if v2 = "BUY" ∨ v2 = "SELL" then .ok v2 else .error .side_invalid

/-- Validation of the `side` field as pydantic v2 performs it: the
`Literal["BUY", "SELL"]` type annotation is checked first, and the
`field_validator` (default mode is after-validation) only runs on
values that already passed it. -/
def validate_side (v : String) : Except ValErr String :=
  if v = "BUY" ∨ v = "SELL" then v_side v else .error .side_literal

/-- The `v_price_cents` validator. -/
def v_price_cents (v : Rat) : Except ValErr Rat :=
  if ¬ (mkRat 1 2 ≤ v ∧ v ≤ mkRat 199 2) then .error .price_range else .ok v

/-- The `v_size` validator. -/
def v_size (v : Rat) : Except ValErr Rat :=
  if v ≤ 0 then .error .size_positive else .ok v

/-- Validation of a whole `/place_order` body. -/
def validate_place_order (r : RawPlaceOrder) : Except ValErr PlaceOrderIn := do
  let side ← validate_side r.side
  let price ← v_price_cents r.price_cents
  let size ← v_size r.size
  .ok
    { token_id := r.token_id, slug := r.slug, outcome := r.outcome,
      side := side, price_cents := price, size := size, client_tag := r.client_tag }

/-- Truthiness of an optional string field (`if not token_id:` treats
both a missing field and an empty string as absent). -/
def optStrTruthy : Option String → Bool
  | Option.none => false
  | some s => s != ""

/-- The notional as computed at `main.py` line 274:
`(price_prob if side == "BUY" else (1.0 - price_prob)) * size`. -/
def notionalOf (inp : PlaceOrderIn) : Rat :=
  qmul
    (if inp.side = "BUY" then normalize_price inp.price_cents
     else qsub (mkRat 1 1) (normalize_price inp.price_cents))
    inp.size

/-- The 400 detail for a notional below the minimum. -/
def notionalMsg (notional : Rat) : String :=
  "Order notional $" ++ fmt2 notional ++ " is below $1 minimum."

/-- The auth-failure detail shared by every protected endpoint. -/
def authDetail : String := "Unauthorized (x-api-key mismatch)"

/-- The shared-secret gate at the top of every protected endpoint:
`if SHEETS_SECRET and x_api_key != SHEETS_SECRET: raise HTTPException(401, ...)`. -/
def authRejects (secret : String) (x_api_key : Option String) : Bool :=
  secret != "" && x_api_key != some secret

/-- Normalized dry-run response body (the `"normalized"` dict). -/
structure DryOut where
  side : String
  token_id : Option String
  slug : Option String
  outcome : Option String
  price_prob : Rat
  size : Rat
  client_tag : Option String

/-- Live response body of `/place_order`. -/
structure LiveOut where
  result : PyVal
  token_id : String
  slug : Option PyVal
  outcome : Option PyVal
  price_prob : Rat
  size : Rat

/-- Response of `/place_order`: dry-run echo or live result. -/
inductive PlaceOut where
  | dry (d : DryOut)
  | live (l : LiveOut)

/-- Outcome of `place_live_limit_order` (client construction, signing
and submission), as an oracle: any exception is wrapped into a 500. -/
def wrapLive (res : Except String PyVal) : Except HErr PyVal :=
  match res with
  | .error e => .error (.http 500 ("Order placement failed: " ++ e))
  | .ok r => .ok r

/-- The body of the `/place_order` handler after the auth gate
(`main.py` lines 269-314).  `gamma` is the directory-service response
used if resolution is needed; `live` maps the submitted order to the
trading-client outcome. -/
def place_order_body (cfg : Config) (gamma : GammaHttp)
    (live : String → String → Rat → Rat → Except String PyVal)
    (inp : PlaceOrderIn) : Except HErr PlaceOut :=
  let price_prob := normalize_price inp.price_cents
  let side := inp.side
  let size := inp.size
  let notional := notionalOf inp
  if notional < 1 then .error (.http 400 (notionalMsg notional))
  else if cfg.dry_run then
    .ok (.dry
      { side := side, token_id := inp.token_id, slug := inp.slug,
        outcome := inp.outcome, price_prob := price_prob, size := size,
        client_tag := inp.client_tag })
  else
    match assert_trading_ready cfg with
    | .error e => .error (.pyExn ("RuntimeError: " ++ e))
    | .ok () =>
      if optStrTruthy inp.token_id then
        match wrapLive (live (inp.token_id.getD "") side price_prob size) with
        | .error e => .error e
        | .ok r =>
          .ok (.live
            { result := r, token_id := inp.token_id.getD "", slug := Option.none,
              outcome := inp.outcome.map PyVal.strV,
              price_prob := price_prob, size := size })
      else if ¬ optStrTruthy inp.slug ∨ ¬ optStrTruthy inp.outcome then
        .error (.http 400 "Provide either token_id OR (slug + outcome).")
      else
        match resolve_token_id_via_gamma (inp.slug.getD "") (inp.outcome.getD "") gamma with
        | .error e => .error e
        | .ok mi =>
          match wrapLive (live mi.token_id side price_prob size) with
          | .error e => .error e
          | .ok r =>
            .ok (.live
              { result := r, token_id := mi.token_id, slug := some mi.market_slug,
                outcome := some mi.outcome_name,
                price_prob := price_prob, size := size })

/-- The `/place_order` handler: auth gate, then body. -/
def place_order (cfg : Config) (gamma : GammaHttp)
    (live : String → String → Rat → Rat → Except String PyVal)
    (inp : PlaceOrderIn) (x_api_key : Option String) : Except HErr PlaceOut :=
  if authRejects cfg.sheets_secret x_api_key then .error (.http 401 authDetail)
  else place_order_body cfg gamma live inp

/-- Response of the tracking endpoints: `ok` flag plus payload. -/
structure ApiOut where
  ok : Bool
  payload : PyVal

/-- Outcome of a raw `requests.get` fallback call: an exception, or a
response with status, decoded JSON body and raw text. -/
inductive FbHttp where
  | exn (e : String)
  | resp (status : Nat) (body : PyVal) (text : String)

/-- The `CLOB {status}: {text[:300]}` detail of fallback failures. -/
def clobMsg (status : Nat) (text : String) : String :=
  "CLOB " ++ toString status ++ ": " ++ text.take 300

/-- Body of the `/order_status` handler after the auth gate (`main.py`
lines 325-349): primary lookup through the trading client; on any
exception a direct REST read of `{CLOB_HOST}/data/order/{order_id}`;
if that also fails, a combined 500 naming both causes (a non-200
fallback status raises an `HTTPException` that the inner `except`
catches and stringifies). -/
def order_status_body (primary : Except String PyVal) (fb : FbHttp) : Except HErr ApiOut :=
  match primary with
  | .ok order => .ok { ok := true, payload := order }
  | .error e =>
    match fb with
    | .exn e2 =>
      .error (.http 500 ("order_status failed: " ++ e ++ " | fallback: " ++ e2))
    | .resp status body text =>
      if status = 200 then .ok { ok := true, payload := body }
      else
        .error (.http 500 ("order_status failed: " ++ e ++ " | fallback: " ++
          strHTTPException status (clobMsg status text)))

/-- The `/order_status` handler. -/
def order_status (cfg : Config) (primary : Except String PyVal) (fb : FbHttp)
    (x_api_key : Option String) : Except HErr ApiOut :=
  if authRejects cfg.sheets_secret x_api_key then .error (.http 401 authDetail)
  else order_status_body primary fb

/-- Body of the `/orders_open` handler after the auth gate (`main.py`
lines 357-382): client setup, `get_open_orders`, then a REST fallback
by address; every raised `HTTPException` of the fallback is re-caught
by the outer handler and wrapped into `orders_open failed: ...`. -/
def orders_open_body (cfg : Config) (setup : Except String Unit)
    (getOpen : Except String PyVal) (fb : FbHttp) : Except HErr ApiOut :=
  match setup with
  | .error e => .error (.http 500 ("orders_open failed: " ++ e))
  | .ok () =>
    match getOpen with
    | .ok orders => .ok { ok := true, payload := orders }
    | .error _ =>
      match fb with
      | .exn e2 =>
        .error (.http 500 ("orders_open failed: " ++
          strHTTPException 502 ("Network error to " ++ cfg.clob_host ++ "/orders: " ++ e2)))
      | .resp status body text =>
        if status ≠ 200 then
          .error (.http 500 ("orders_open failed: " ++
            strHTTPException status (clobMsg status text)))
        else .ok { ok := true, payload := body }

/-- The `/orders_open` handler. -/
def orders_open (cfg : Config) (setup : Except String Unit)
    (getOpen : Except String PyVal) (fb : FbHttp) (x_api_key : Option String) :
    Except HErr ApiOut :=
  if authRejects cfg.sheets_secret x_api_key then .error (.http 401 authDetail)
  else orders_open_body cfg setup getOpen fb

/-- Body of the `/fills` handler after the auth gate (`main.py` lines
390-399): one REST call, no fallback; a network failure surfaces as the
502 raised by `_http_get`, a non-200 status as an `HTTPException` with
that status. -/
def fills_body (cfg : Config) (fb : FbHttp) : Except HErr ApiOut :=
  match fb with
  | .exn e => .error (.http 502 ("Network error to " ++ cfg.clob_host ++ "/trades: " ++ e))
  | .resp status body text =>
    if status ≠ 200 then .error (.http status (clobMsg status text))
    else .ok { ok := true, payload := body }

/-- The `/fills` handler. -/
def fills (cfg : Config) (fb : FbHttp) (x_api_key : Option String) : Except HErr ApiOut :=
  if authRejects cfg.sheets_secret x_api_key then .error (.http 401 authDetail)
  else fills_body cfg fb

/-- Body of the `/cancel_order` handler after the auth gate (`main.py`
lines 433-448): trading-readiness check (an uncaught `RuntimeError` on
violation), then the client call, whose failure is wrapped into a 500. -/
def cancel_order_body (cfg : Config) (cancelRes : Except String PyVal) : Except HErr ApiOut :=
  match assert_trading_ready cfg with
  | .error e => .error (.pyExn ("RuntimeError: " ++ e))
  | .ok () =>
    match cancelRes with
    | .error e => .error (.http 500 ("cancel_order failed: " ++ e))
    | .ok r => .ok { ok := true, payload := r }

/-- The `/cancel_order` handler. -/
def cancel_order (cfg : Config) (cancelRes : Except String PyVal)
    (x_api_key : Option String) : Except HErr ApiOut :=
  if authRejects cfg.sheets_secret x_api_key then .error (.http 401 authDetail)
  else cancel_order_body cfg cancelRes

/-- A dry-run configuration with the shared secret unset. -/
def cfgDryNoAuth : Config :=
  { private_key := "", api_key := "", clob_host := "https://clob.polymarket.com",
    chain_id := 137, dry_run := true, sheets_secret := "",
    signature_type := 2, polymarket_proxy := "" }

/-- A live configuration with the shared secret unset. -/
def cfgLiveNoAuth : Config :=
  { cfgDryNoAuth with dry_run := false }

/-- A directory-service oracle that is never consulted in the scenarios
that use it. -/
def gammaUnused : GammaHttp := .netExn "unused"

/-- A trading-client oracle that is never consulted in the scenarios
that use it. -/
def liveUnused : String → String → Rat → Rat → Except String PyVal :=
  fun _ _ _ _ => .error "unused"

/-- A valid BUY request whose notional 0.10 * 5 = 0.50 is below $1. -/
def inpLowNotionalBuy : PlaceOrderIn :=
  { token_id := some "tok", slug := Option.none, outcome := Option.none,
    side := "BUY", price_cents := 10, size := 5, client_tag := Option.none }

/-- A valid SELL request whose notional (1 - 0.90) * 5 = 0.50 is below $1. -/
def inpLowNotionalSell : PlaceOrderIn :=
  { token_id := some "tok2", slug := Option.none, outcome := Option.none,
    side := "SELL", price_cents := 90, size := 5, client_tag := Option.none }

/-- A dry-run request carrying an (unresolvable) slug and outcome. -/
def inpDrySlug : PlaceOrderIn :=
  { token_id := Option.none, slug := some "no-such-market", outcome := some "Maybe",
    side := "BUY", price_cents := 50, size := 4, client_tag := some "tag1" }

/-- The market record of the resolver example: outcomes Yes/No with
token ids 111/222. -/
def exampleRecord : BestRecord :=
  { slug := .strV "mkt", question := .strV "Q", prices := [],
    outcomes := [.strV "Yes", .strV "No"],
    token_ids := ["111", "222"] }

/-- A record whose defaulted outcome list (Yes/No) is longer than its
single-element token-id list. -/
def shortRecord : BestRecord :=
  { slug := .strV "", question := .strV "(no title)", prices := [],
    outcomes := [],
    token_ids := ["111"] }

/-- A configuration whose shared secret is set. -/
def cfgWithSecret : Config :=
  { cfgDryNoAuth with sheets_secret := "hunter2" }

/-- The normalized order that the claim predicts for the dry-run SELL
request with notional 0.50. -/
def predictedDrySell : DryOut :=
  { side := "SELL", token_id := some "tok2", slug := Option.none,
    outcome := Option.none, price_prob := normalize_price 90, size := 5,
    client_tag := Option.none }

/-! ## Theorems -/

/-- Claim C2 (code bug evidence): pydantic validates the
`Literal["BUY", "SELL"]` annotation before the after-mode
`field_validator`, so the lowercase value `"buy"` is rejected by the
literal check and the upper-casing `v_side` validator never runs on it —
even though `v_side` on its own would canonicalize `"buy"` to `"BUY"`.
Exact values `"BUY"`/`"SELL"` still pass. -/
theorem c2_side_literal_rejects_lowercase :
    validate_side "buy" = .error .side_literal
    ∧ v_side "buy" = .ok "BUY"
    ∧ validate_side "BUY" = .ok "BUY"
    ∧ validate_side "SELL" = .ok "SELL"
    ∧ validate_side "hold" = .error .side_literal :=
  ⟨rfl, rfl, rfl, rfl, rfl⟩

/-- Claim C1 (counterexample): with `DRY_RUN=true` and a valid BUY
request of price 10 cents and size 5 (notional 0.50 < 1), the dry-run
path does *not* return the normalized order: the notional gate sits
before the dry-run branch and rejects with the below-minimum 400. -/
theorem c1_counterexample :
    cfgDryNoAuth.dry_run = true
    ∧ mkRat 1 2 ≤ inpLowNotionalBuy.price_cents
    ∧ inpLowNotionalBuy.price_cents ≤ mkRat 199 2
    ∧ 0 < inpLowNotionalBuy.size
    ∧ notionalOf inpLowNotionalBuy = mkRat 1 2
    ∧ place_order cfgDryNoAuth gammaUnused liveUnused inpLowNotionalBuy Option.none =
        .error (.http 400 "Order notional $0.50 is below $1 minimum.") :=
  ⟨rfl, by decide, by decide, by decide, rfl, rfl⟩

/-- Claim C1 (amended): for every order request with valid price and
size whose computed notional is below 1.0, `place_order` rejects with
the below-minimum 400 on *both* the live and the dry-run path (the
check precedes the dry-run branch), without consulting the directory
service or the trading client. -/
theorem c1_notional_floor_rejects_both_paths
    (cfg : Config) (gamma : GammaHttp)
    (live : String → String → Rat → Rat → Except String PyVal)
    (inp : PlaceOrderIn) (key : Option String)
    (hpl : mkRat 1 2 ≤ inp.price_cents) (hpu : inp.price_cents ≤ mkRat 199 2)
    (hsz : 0 < inp.size)
    (hauth : authRejects cfg.sheets_secret key = false)
    (hn : notionalOf inp < 1) :
    place_order cfg gamma live inp key =
      .error (.http 400 (notionalMsg (notionalOf inp))) := by
  unfold place_order place_order_body
  rw [hauth]
  simp only [Bool.false_eq_true, if_false, if_pos hn]

/-- Claim C1 (witness): the amended statement at a concrete live
configuration and the concrete below-minimum SELL request. -/
theorem c1_notional_floor_witness :
    place_order cfgLiveNoAuth gammaUnused liveUnused inpLowNotionalSell Option.none =
      .error (.http 400 (notionalMsg (notionalOf inpLowNotionalSell))) :=
  c1_notional_floor_rejects_both_paths cfgLiveNoAuth gammaUnused liveUnused
    inpLowNotionalSell Option.none (by decide) (by decide) (by decide) rfl (by decide)

/-- Claim C7 (counterexample): a dry-run request (valid price and size)
whose notional is below 1 does not get the normalized order back;
`place_order` raises the below-minimum 400 even in dry-run, so the
claim "for every order request processed with dryRun true ... returns
the normalized order" fails at this input. -/
theorem c7_counterexample :
    cfgDryNoAuth.dry_run = true
    ∧ place_order cfgDryNoAuth gammaUnused liveUnused inpLowNotionalSell Option.none =
        .error (.http 400 "Order notional $0.50 is below $1 minimum.")
    ∧ place_order cfgDryNoAuth gammaUnused liveUnused inpLowNotionalSell Option.none ≠
        .ok (.dry predictedDrySell) := by
  refine ⟨rfl, rfl, ?_⟩
  intro h
  rw [show place_order cfgDryNoAuth gammaUnused liveUnused inpLowNotionalSell Option.none =
      .error (.http 400 "Order notional $0.50 is below $1 minimum.") from rfl] at h
  exact Except.noConfusion h

/-- Claim C7 (amended): for every order request with notional at least
1.0 processed with `DRY_RUN=true`, `place_order` runs the normalizer
only and returns the normalized order: the result does not depend on
the directory-service or trading-client oracles (no call is made), and
slug and outcome are echoed back unchanged and unresolved. -/
theorem c7_dry_run_normalizes_only
    (cfg : Config) (inp : PlaceOrderIn) (key : Option String)
    (hdry : cfg.dry_run = true)
    (hauth : authRejects cfg.sheets_secret key = false)
    (hn : ¬ notionalOf inp < 1) :
    (∀ gamma gamma2 live live2,
        place_order cfg gamma live inp key = place_order cfg gamma2 live2 inp key)
    ∧ ∀ gamma live,
        place_order cfg gamma live inp key =
          .ok (.dry
            { side := inp.side, token_id := inp.token_id, slug := inp.slug,
              outcome := inp.outcome, price_prob := normalize_price inp.price_cents,
              size := inp.size, client_tag := inp.client_tag }) := by
  have hbody : ∀ gamma live,
      place_order cfg gamma live inp key =
        .ok (.dry
          { side := inp.side, token_id := inp.token_id, slug := inp.slug,
            outcome := inp.outcome, price_prob := normalize_price inp.price_cents,
            size := inp.size, client_tag := inp.client_tag }) := by
    intro gamma live
    unfold place_order place_order_body
    rw [hauth]
    simp only [Bool.false_eq_true, if_false, if_neg hn, hdry, if_pos]
  exact ⟨fun g g2 l l2 => (hbody g l).trans (hbody g2 l2).symm, hbody⟩

/-- Claim C7 (witness): the amended statement at the concrete dry-run
configuration and a request carrying an unresolved slug and outcome,
which are echoed back untouched. -/
theorem c7_dry_run_witness :
    place_order cfgDryNoAuth gammaUnused liveUnused inpDrySlug Option.none =
      .ok (.dry
        { side := "BUY", token_id := Option.none, slug := some "no-such-market",
          outcome := some "Maybe", price_prob := normalize_price 50,
          size := 4, client_tag := some "tag1" }) :=
  (c7_dry_run_normalizes_only cfgDryNoAuth inpDrySlug Option.none rfl rfl
    (by decide)).2 gammaUnused liveUnused

/-- Claim C3: within a chosen record, `selectOutcome` matches the
requested outcome name against the (defaulted) outcome-name list by
stripped case-insensitive exact comparison only: an empty decoded
outcome list defaults to Yes/No; a match at index `i` (within range)
returns the token id at index `i`; the matching depends only on the
stripped-and-lowered query; a failed match raises the 404 whose detail
lists the available names; and on the concrete example record
(outcomes Yes/No, tokens 111/222) the lowercase query "no" resolves to
token id "222" at index 1. -/
theorem c3_outcome_matching :
    (∀ outcomes : List PyVal, outcomes = [] → effNames outcomes = [.strV "Yes", .strV "No"])
    ∧ (∀ slug best outcome i, nameIdx (effNames best.outcomes) outcome = some i →
        ∀ hlt : i < best.token_ids.length,
          selectOutcome slug best outcome =
            .ok
              { token_id := best.token_ids.get ⟨i, hlt⟩
                market_slug := best.slug
                question := best.question
                outcome_index := i
                outcome_name := (effNames best.outcomes).getD i .none })
    ∧ (∀ names oc1 oc2, pyLower (pyStrip oc1) = pyLower (pyStrip oc2) →
        nameIdx names oc1 = nameIdx names oc2)
    ∧ (∀ slug best outcome, nameIdx (effNames best.outcomes) outcome = Option.none →
        selectOutcome slug best outcome =
          .error (.http 404 (outcomeNotFoundMsg outcome slug (effNames best.outcomes))))
    ∧ selectOutcome "mkt" exampleRecord "no" =
        .ok
          { token_id := "222", market_slug := .strV "mkt", question := .strV "Q",
            outcome_index := 1, outcome_name := .strV "No" } := by
  refine ⟨?_, ?_, ?_, ?_, rfl⟩
  · intro outcomes h; rw [h]; rfl
  · intro slug best outcome i hm hlt
    simp only [selectOutcome]
    rw [hm]
    dsimp only
    rw [List.get?_eq_get hlt]
  · intro names oc1 oc2 h
    unfold nameIdx
    rw [h]
  · intro slug best outcome hm
    simp only [selectOutcome]
    rw [hm]

/-- Claim C3 (witness): the match conjunct applied to the example
record with the padded upper-case query " YES ", which strips and
lowers to a match at index 0, returning token id "111". -/
theorem c3_outcome_matching_witness :
    selectOutcome "mkt" exampleRecord " YES " =
      .ok
        { token_id := "111", market_slug := .strV "mkt", question := .strV "Q",
          outcome_index := 0, outcome_name := .strV "Yes" } :=
  c3_outcome_matching.2.1 "mkt" exampleRecord " YES " 0 rfl (by decide)

/-- Claim C10: whenever the matched outcome index is at least the
length of the chosen record's token-id list, the final indexing raises
an uncaught `IndexError` instead of any `HTTPException`; concretely, a
directory record with no outcome field (defaulted to Yes/No) but a
single token id resolved with outcome "No" makes the whole resolver
fail that way. -/
theorem c10_index_error_out_of_range :
    (∀ slug best outcome i, nameIdx (effNames best.outcomes) outcome = some i →
        best.token_ids.length ≤ i →
        selectOutcome slug best outcome = .error (.pyExn "IndexError"))
    ∧ resolve_token_id_via_gamma "market-x" "No"
        (.httpResp 200 (.listV [.dictV [("clobTokenIds", .strV "[\"111\"]")]]) "") =
        .error (.pyExn "IndexError")
    ∧ ∀ code msg,
        resolve_token_id_via_gamma "market-x" "No"
          (.httpResp 200 (.listV [.dictV [("clobTokenIds", .strV "[\"111\"]")]]) "") ≠
          .error (.http code msg) := by
  refine ⟨?_, rfl, ?_⟩
  · intro slug best outcome i hm hle
    simp only [selectOutcome]
    rw [hm]
    dsimp only
    rw [List.get?_eq_none.mpr hle]
  · intro code msg h
    rw [show resolve_token_id_via_gamma "market-x" "No"
        (.httpResp 200 (.listV [.dictV [("clobTokenIds", .strV "[\"111\"]")]]) "") =
        .error (.pyExn "IndexError") from rfl] at h
    simp at h

/-- Claim C10 (witness): the out-of-range conjunct applied to the
record with defaulted outcomes Yes/No but a single token id. -/
theorem c10_index_error_witness :
    selectOutcome "market-x" shortRecord "No" = .error (.pyExn "IndexError") :=
  c10_index_error_out_of_range.1 "market-x" shortRecord "No" 1 rfl (by decide)

/-- A record with an empty decoded token-id list is skipped
(`if token_ids:` fails, the loop continues). -/
theorem mk_best_empty_tokens (fs : List (String × PyVal))
    (h : recordTokenIds fs = []) : mk_best fs = .ok Option.none := by
  simp only [mk_best, h, List.isEmpty_nil, if_true]

/-- A record with a non-empty decoded token-id list is never skipped:
`mk_best` yields either a built record or an uncaught error. -/
theorem mk_best_nonempty (fs : List (String × PyVal))
    (h : recordTokenIds fs ≠ []) : mk_best fs ≠ .ok Option.none := by
  simp only [mk_best]
  have hne : (recordTokenIds fs).isEmpty = false := by
    cases hr : recordTokenIds fs with
    | nil => exact absurd hr h
    | cons a l => rfl
  rw [hne]
  simp only [Bool.false_eq_true, if_false]
  split
  · intro hc; exact Except.noConfusion hc
  · intro hc
    injection hc with hc2
    exact Option.noConfusion hc2

/-- Records that are dicts without token ids are skipped by the scan. -/
theorem pick_best_skip (pre rest : List PyVal)
    (hpre : ∀ m ∈ pre, ∃ gs, m = .dictV gs ∧ recordTokenIds gs = []) :
    pick_best (pre ++ rest) = pick_best rest := by
  induction pre with
  | nil => rfl
  | cons m pre ih =>
    obtain ⟨gs, hm, hgs⟩ := hpre m (List.mem_cons_self m pre)
    subst hm
    simp only [List.cons_append, pick_best]
    rw [mk_best_empty_tokens gs hgs]
    exact ih (fun x hx => hpre x (List.mem_cons_of_mem _ hx))

/-- The scan stops at the first record with token ids: the result is
determined by that record alone. -/
theorem pick_best_first (fs : List (String × PyVal)) (post : List PyVal)
    (h : recordTokenIds fs ≠ []) :
    pick_best (.dictV fs :: post) = mk_best fs := by
  simp only [pick_best]
  cases hmb : mk_best fs with
  | error e => rfl
  | ok ob =>
    cases ob with
    | none => exact absurd hmb (mk_best_nonempty fs h)
    | some b => rfl

/-- Claim C4 (counterexample): a non-empty directory response that is a
list but not a list of records — here `[42]` — does not produce the
"not found" `ResolutionError`; `m.get` on the integer raises an
uncaught `AttributeError` instead. -/
theorem c4_counterexample_nonrecord_crash :
    resolve_token_id_via_gamma "slug-x" "Yes" (.httpResp 200 (.listV [.intV 42]) "") =
      .error (.pyExn "AttributeError")
    ∧ resolve_token_id_via_gamma "slug-x" "Yes" (.httpResp 200 (.listV [.intV 42]) "") ≠
        .error (.http 404 (noMarketsMsg "slug-x")) := by
  refine ⟨rfl, ?_⟩
  intro h
  rw [show resolve_token_id_via_gamma "slug-x" "Yes"
      (.httpResp 200 (.listV [.intV 42]) "") = .error (.pyExn "AttributeError") from rfl] at h
  simp at h

/-- Claim C4 (amended): the resolver scans the records in order and
selects the first whose decoded token-id list is non-empty, never
merging fields across records; it fails with the "not found" 404 when
the response is empty or not a list (a list containing a non-record
element reached by the scan instead raises an uncaught attribute
error), and with the "no token ids" 404 when every record is a dict
with an empty decoded token-id list. -/
theorem c4_first_record_and_failure_modes :
    (∀ slug oc text, slug ≠ "" →
        resolve_token_id_via_gamma slug oc (.httpResp 200 (.listV []) text) =
          .error (.http 404 (noMarketsMsg slug)))
    ∧ (∀ slug oc text v, slug ≠ "" → (∀ xs, v ≠ .listV xs) →
        resolve_token_id_via_gamma slug oc (.httpResp 200 v text) =
          .error (.http 404 (noMarketsMsg slug)))
    ∧ (∀ slug oc text ms, slug ≠ "" → ms ≠ [] →
        (∀ m ∈ ms, ∃ gs, m = .dictV gs ∧ recordTokenIds gs = []) →
        resolve_token_id_via_gamma slug oc (.httpResp 200 (.listV ms) text) =
          .error (.http 404 (noTokenIdsMsg slug)))
    ∧ (∀ pre fs post, (∀ m ∈ pre, ∃ gs, m = .dictV gs ∧ recordTokenIds gs = []) →
        recordTokenIds fs ≠ [] →
        pick_best (pre ++ .dictV fs :: post) = mk_best fs) := by
  have h200 : ¬ (200 : Nat) ≠ 200 := fun hh => hh rfl
  refine ⟨?_, ?_, ?_, ?_⟩
  · intro slug oc text hslug
    unfold resolve_token_id_via_gamma
    rw [if_neg hslug]
    dsimp only
    rw [if_neg h200]
    rfl
  · intro slug oc text v hslug hv
    unfold resolve_token_id_via_gamma
    rw [if_neg hslug]
    dsimp only
    rw [if_neg h200]
    cases v with
    | listV xs => exact absurd rfl (hv xs)
    | none => rfl
    | boolV b => exact ite_self _
    | intV n => exact ite_self _
    | floatV q => exact ite_self _
    | strV s => exact ite_self _
    | dictV fs => exact ite_self _
  · intro slug oc text ms hslug hms hall
    unfold resolve_token_id_via_gamma
    rw [if_neg hslug]
    dsimp only
    rw [if_neg h200]
    have htr : pyTruthy (.listV ms) = true := by
      cases ms with
      | nil => exact absurd rfl hms
      | cons a l => rfl
    rw [if_neg (by rw [htr]; exact fun hh => hh rfl)]
    have : pick_best ms = .ok Option.none := by
      have := pick_best_skip ms [] hall
      rwa [List.append_nil] at this
    rw [this]
  · intro pre fs post hpre hfs
    rw [pick_best_skip pre (.dictV fs :: post) hpre, pick_best_first fs post hfs]

/-- Claim C4 (witness): the amended statement at concrete inputs — the
all-empty-records 404 and first-record selection past a tokenless dict. -/
theorem c4_first_record_witness :
    resolve_token_id_via_gamma "slug-a" "Yes" (.httpResp 200 (.listV [.dictV []]) "") =
      .error (.http 404 (noTokenIdsMsg "slug-a"))
    ∧ pick_best [.dictV [], .dictV [("clobTokenIds", .strV "[\"7\"]")]] =
        mk_best [("clobTokenIds", .strV "[\"7\"]")] := by
  constructor
  · exact c4_first_record_and_failure_modes.2.2.1 "slug-a" "Yes" "" [.dictV []]
      (by simp) (by simp)
      (by
        intro m hm
        rw [List.mem_singleton] at hm
        exact ⟨[], hm, rfl⟩)
  · exact c4_first_record_and_failure_modes.2.2.2 [.dictV []]
      [("clobTokenIds", .strV "[\"7\"]")] []
      (by
        intro m hm
        rw [List.mem_singleton] at hm
        exact ⟨[], hm, rfl⟩)
      (by
        rw [show recordTokenIds [("clobTokenIds", .strV "[\"7\"]")] = [.strV "7"] from rfl]
        exact List.cons_ne_nil _ _)

/-- Skipping whitespace leaves a non-whitespace-headed input unchanged. -/
theorem skipWs_cons_of_not_ws (c : Char) (cs : List Char)
    (h : ¬ (c = ' ' ∨ c = '\t' ∨ c = '\n' ∨ c = '\r')) : skipWs (c :: cs) = c :: cs := by
  unfold skipWs
  rw [if_neg h]

/-- Parsing the body of an escape-free JSON string consumes it up to
the closing quote. -/
theorem parseStrBody_append (x rest : List Char) (h : ∀ c ∈ x, jsonNiceChar c) :
    parseStrBody (x ++ '"' :: rest) = some (x, rest) := by
  induction x with
  | nil =>
    rw [List.nil_append, parseStrBody.eq_def]
    dsimp only
    rw [if_pos rfl]
  | cons c x ih =>
    obtain ⟨h1, h2, h3⟩ := h c (List.mem_cons_self c x)
    rw [List.cons_append, parseStrBody.eq_def]
    dsimp only
    rw [if_neg h1, if_neg h2, if_neg (by omega : ¬ c.toNat < 32)]
    rw [ih (fun d hd => h d (List.mem_cons_of_mem c hd))]
    rfl

/-- Parsing a quoted escape-free string element. -/
theorem parseVal_string (g : Nat) (x rest : List Char)
    (h : ∀ c ∈ x, jsonNiceChar c) :
    parseVal (g + 1) ('"' :: (x ++ '"' :: rest)) =
      some (.strV (String.mk x), rest) := by
  rw [parseVal.eq_def]
  dsimp only
  rw [skipWs_cons_of_not_ws '"' _ (by decide)]
  dsimp only
  rw [if_pos rfl, parseStrBody_append x rest h]
  rfl

/-- The encoded body of a non-empty list of strings starts with a quote. -/
theorem encStrsBody_head (ls : List (List Char)) (h : ls ≠ []) :
    ∃ t, encStrsBody ls = '"' :: t := by
  cases ls with
  | nil => exact absurd rfl h
  | cons x xs =>
    cases xs with
    | nil => exact ⟨_, rfl⟩
    | cons y ys => exact ⟨_, rfl⟩

/-- Each encoded element contributes at least three characters. -/
theorem encStrsBody_length (ls : List (List Char)) (h : ls ≠ []) :
    3 * ls.length ≤ (encStrsBody ls).length := by
  induction ls with
  | nil => exact absurd rfl h
  | cons x xs ih =>
    cases xs with
    | nil =>
      show 3 * ([x].length) ≤ ('"' :: (x ++ '"' :: [']'])).length
      simp only [List.length_cons, List.length_append, List.length_nil]
      omega
    | cons y ys =>
      have hr := ih (List.cons_ne_nil y ys)
      show 3 * ((x :: y :: ys).length) ≤
        ('"' :: (x ++ '"' :: ',' :: encStrsBody (y :: ys))).length
      simp only [List.length_cons, List.length_append] at hr ⊢
      omega

/-- The parser reconstructs an encoded non-empty list of escape-free
strings, given fuel of at least twice the element count. -/
theorem parseVal_encStrsBody :
    ∀ (ls : List (List Char)) (f : Nat), ls ≠ [] →
      (∀ x ∈ ls, ∀ c ∈ x, jsonNiceChar c) → 2 * ls.length + 1 ≤ f →
      parseVal f ('[' :: encStrsBody ls) =
        some (.listV (ls.map (fun x => .strV (String.mk x))), []) := by
  intro ls
  induction ls with
  | nil => intro f h _ _; exact absurd rfl h
  | cons x xs ih =>
    intro f _ hnice hf
    simp only [List.length_cons] at hf
    obtain ⟨g, rfl⟩ : ∃ g, f = g + 1 := ⟨f - 1, by omega⟩
    have hx : ∀ c ∈ x, jsonNiceChar c := hnice x (List.mem_cons_self x xs)
    cases xs with
    | nil =>
      show parseVal (g + 1) ('[' :: '"' :: (x ++ '"' :: [']'])) = _
      rw [parseVal.eq_def]
      dsimp only
      rw [skipWs_cons_of_not_ws '[' _ (by decide)]
      dsimp only
      rw [if_neg (by decide : ¬ ('[' : Char) = '"'), if_pos rfl]
      rw [skipWs_cons_of_not_ws '"' _ (by decide)]
      dsimp only
      rw [if_neg (by decide : ¬ ('"' : Char) = ']')]
      obtain ⟨g2, rfl⟩ : ∃ g2, g = g2 + 1 := ⟨g - 1, by omega⟩
      rw [parseVal_string g2 x [']'] hx]
      rfl
    | cons y ys =>
      show parseVal (g + 1)
        ('[' :: '"' :: (x ++ '"' :: ',' :: encStrsBody (y :: ys))) = _
      rw [parseVal.eq_def]
      dsimp only
      rw [skipWs_cons_of_not_ws '[' _ (by decide)]
      dsimp only
      rw [if_neg (by decide : ¬ ('[' : Char) = '"'), if_pos rfl]
      rw [skipWs_cons_of_not_ws '"' _ (by decide)]
      dsimp only
      rw [if_neg (by decide : ¬ ('"' : Char) = ']')]
      obtain ⟨g2, rfl⟩ : ∃ g2, g = g2 + 1 := ⟨g - 1, by omega⟩
      rw [parseVal_string g2 x (',' :: encStrsBody (y :: ys)) hx]
      dsimp only
      rw [skipWs_cons_of_not_ws ',' _ (by decide)]
      dsimp only
      rw [if_pos rfl]
      obtain ⟨t, ht⟩ := encStrsBody_head (y :: ys) (List.cons_ne_nil y ys)
      rw [ht, skipWs_cons_of_not_ws '"' _ (by decide)]
      dsimp only
      rw [if_neg (by decide : ¬ ('"' : Char) = ']')]
      have hih := ih (g2 + 1) (List.cons_ne_nil y ys)
        (fun z hz => hnice z (List.mem_cons_of_mem x hz))
        (by simp only [List.length_cons] at hf ⊢; omega)
      rw [ht] at hih
      rw [hih]
      rfl

/-- The decoder inverts the encoder on lists of escape-free strings. -/
theorem jsonLoads_encStrs (ls : List (List Char))
    (h : ∀ x ∈ ls, ∀ c ∈ x, jsonNiceChar c) :
    jsonLoads (String.mk (encStrs ls)) =
      some (.listV (ls.map (fun x => .strV (String.mk x)))) := by
  cases ls with
  | nil => rfl
  | cons x xs =>
    unfold jsonLoads
    have hdata : (String.mk (encStrs (x :: xs))).data = '[' :: encStrsBody (x :: xs) := rfl
    rw [hdata]
    have hlen : 2 * (x :: xs).length + 1 ≤ ('[' :: encStrsBody (x :: xs)).length + 1 := by
      have h3 := encStrsBody_length (x :: xs) (List.cons_ne_nil x xs)
      simp only [List.length_cons] at h3 ⊢
      omega
    rw [parseVal_encStrsBody (x :: xs) _ (List.cons_ne_nil x xs) h hlen]
    rfl

/-- Claim C5: the flexible list decoder `_as_list` normalizes the three
encodings to the same list: a native list is returned unchanged; any
string that JSON-decodes to a list gives exactly the list that the
literal list gives; the JSON encoding of every list of escape-free
strings decodes back to that list of strings; a comma-separated join of
clean items (non-empty, strip-invariant, comma-free) that is not itself
a complete JSON document gives the same items back as strings; and in
particular the JSON-encoded string of Yes/No and the literal Yes/No
list decode to the same two-element list. -/
theorem c5_flexible_list_decoder :
    (∀ xs : List PyVal, as_list (.listV xs) = xs)
    ∧ (∀ (s : String) (xs : List PyVal), jsonLoads s = some (.listV xs) →
        as_list (.strV s) = as_list (.listV xs))
    ∧ (∀ l : List String, (∀ x ∈ l, ∀ c ∈ x.data, jsonNiceChar c) →
        as_list (.strV (jsonEncodeStrList l)) = l.map .strV)
    ∧ (∀ l : List String, l ≠ [] →
        (∀ x ∈ l, pyStrip x = x ∧ x ≠ "" ∧ ',' ∉ x.data) →
        jsonLoads (String.mk (List.intercalate [','] (l.map String.data))) = Option.none →
        as_list (.strV (String.mk (List.intercalate [','] (l.map String.data)))) =
          l.map .strV)
    ∧ as_list (.strV "[\"Yes\",\"No\"]") = as_list (.listV [.strV "Yes", .strV "No"]) := by
  refine ⟨fun xs => rfl, ?_, ?_, ?_, rfl⟩
  · intro s xs h
    simp only [as_list, h]
  · intro l hl
    simp only [as_list, jsonEncodeStrList]
    rw [jsonLoads_encStrs (l.map String.data)
      (by
        intro x hx
        rw [List.mem_map] at hx
        obtain ⟨y, hy, rfl⟩ := hx
        exact hl y hy)]
    dsimp only
    rw [List.map_map]
    rfl
  · intro l hne hclean hJ
    simp only [as_list, hJ]
    unfold commaParts
    have hdata : (String.mk (List.intercalate [','] (l.map String.data))).data =
        List.intercalate [','] (l.map String.data) := rfl
    rw [hdata]
    rw [List.splitOn_intercalate (l.map String.data) ','
      (by
        intro chunk hchunk
        rw [List.mem_map] at hchunk
        obtain ⟨x, hx, rfl⟩ := hchunk
        exact (hclean x hx).2.2)
      (by
        intro hmap
        exact hne (List.map_eq_nil_iff.mp hmap))]
    rw [List.map_map]
    have hmapid : (l.map fun x => pyStrip (String.mk x.data)) = l := by
      rw [List.map_congr_left (fun x hx => (hclean x hx).1)]; exact List.map_id' l
    rw [show ((fun cs => pyStrip (String.mk cs)) ∘ String.data) =
        (fun x => pyStrip (String.mk x.data)) from rfl, hmapid]
    rw [List.filter_eq_self.mpr (fun a ha => decide_eq_true (hclean a ha).2.1)]

/-- Claim C5 (witness): the decoder conjuncts at the concrete inputs of
the spec — a JSON-encoded pair versus a literal pair, and the
comma-separated pair "Yes,No". -/
theorem c5_flexible_list_decoder_witness :
    as_list (.strV "[\"A\",\"B\"]") = as_list (.listV [.strV "A", .strV "B"])
    ∧ as_list (.strV (jsonEncodeStrList ["Yes", "No"])) = ["Yes", "No"].map PyVal.strV
    ∧ as_list (.strV (String.mk (List.intercalate [',']
        (["Yes", "No"].map String.data)))) = ["Yes", "No"].map PyVal.strV := by
  refine ⟨?_, ?_, ?_⟩
  · exact c5_flexible_list_decoder.2.1 "[\"A\",\"B\"]" [.strV "A", .strV "B"] rfl
  · exact c5_flexible_list_decoder.2.2.1 ["Yes", "No"] (by decide)
  · exact c5_flexible_list_decoder.2.2.2.1 ["Yes", "No"] (by simp)
      (by
        intro x hx
        rw [List.mem_cons, List.mem_singleton] at hx
        rcases hx with rfl | rfl
        · exact ⟨rfl, by simp, by decide⟩
        · exact ⟨rfl, by simp, by decide⟩)
      rfl

/-- Claim C8: every protected endpoint (`place_order`, `order_status`,
`orders_open`, `fills`, `cancel_order`) rejects with the 401
auth error whenever the configured shared secret is non-empty and the
`x-api-key` header differs from it (a missing header included); and
when the secret is empty the gate is bypassed — each handler proceeds
to its body whatever the header is. -/
theorem c8_shared_secret_gate :
    (∀ (cfg : Config) (key : Option String), cfg.sheets_secret ≠ "" →
        key ≠ some cfg.sheets_secret →
        (∀ gamma live inp,
            place_order cfg gamma live inp key = .error (.http 401 authDetail))
        ∧ (∀ primary fb, order_status cfg primary fb key = .error (.http 401 authDetail))
        ∧ (∀ setup go fb, orders_open cfg setup go fb key = .error (.http 401 authDetail))
        ∧ (∀ fb, fills cfg fb key = .error (.http 401 authDetail))
        ∧ (∀ cr, cancel_order cfg cr key = .error (.http 401 authDetail)))
    ∧ (∀ (cfg : Config) (key : Option String), cfg.sheets_secret = "" →
        (∀ gamma live inp,
            place_order cfg gamma live inp key = place_order_body cfg gamma live inp)
        ∧ (∀ primary fb, order_status cfg primary fb key = order_status_body primary fb)
        ∧ (∀ setup go fb,
            orders_open cfg setup go fb key = orders_open_body cfg setup go fb)
        ∧ (∀ fb, fills cfg fb key = fills_body cfg fb)
        ∧ (∀ cr, cancel_order cfg cr key = cancel_order_body cfg cr)) := by
  have hrej : ∀ (secret : String) (key : Option String), secret ≠ "" →
      key ≠ some secret → authRejects secret key = true := by
    intro secret key h1 h2
    unfold authRejects
    rw [Bool.and_eq_true, bne_iff_ne, bne_iff_ne]
    exact ⟨h1, h2⟩
  have hpass : ∀ (key : Option String), authRejects "" key = false := by
    intro key
    unfold authRejects
    simp
  constructor
  · intro cfg key h1 h2
    have hr := hrej cfg.sheets_secret key h1 h2
    exact
      ⟨fun gamma live inp => by unfold place_order; rw [hr]; rfl,
       fun primary fb => by unfold order_status; rw [hr]; rfl,
       fun setup go fb => by unfold orders_open; rw [hr]; rfl,
       fun fb => by unfold fills; rw [hr]; rfl,
       fun cr => by unfold cancel_order; rw [hr]; rfl⟩
  · intro cfg key h0
    have hp : authRejects cfg.sheets_secret key = false := by rw [h0]; exact hpass key
    exact
      ⟨fun gamma live inp => by unfold place_order; rw [hp]; rfl,
       fun primary fb => by unfold order_status; rw [hp]; rfl,
       fun setup go fb => by unfold orders_open; rw [hp]; rfl,
       fun fb => by unfold fills; rw [hp]; rfl,
       fun cr => by unfold cancel_order; rw [hp]; rfl⟩

/-- Claim C8 (witness): with the secret configured, a missing header
and a wrong header are both rejected with the 401 on concrete
endpoints; with the secret empty, `fills` proceeds to its body under an
arbitrary header. -/
theorem c8_shared_secret_gate_witness :
    fills cfgWithSecret (.resp 200 (.listV []) "") Option.none =
      .error (.http 401 authDetail)
    ∧ cancel_order cfgWithSecret (.ok (.dictV [])) (some "wrong") =
        .error (.http 401 authDetail)
    ∧ fills cfgDryNoAuth (.resp 200 (.listV []) "") (some "anything") =
        fills_body cfgDryNoAuth (.resp 200 (.listV []) "") := by
  refine ⟨?_, ?_, ?_⟩
  · exact (c8_shared_secret_gate.1 cfgWithSecret Option.none (by simp [cfgWithSecret])
      (by simp)).2.2.2.1 (.resp 200 (.listV []) "")
  · exact (c8_shared_secret_gate.1 cfgWithSecret (some "wrong") (by simp [cfgWithSecret])
      (by simp [cfgWithSecret])).2.2.2.2 (.ok (.dictV []))
  · exact (c8_shared_secret_gate.2 cfgDryNoAuth (some "anything") rfl).2.2.2.1
      (.resp 200 (.listV []) "")

/-- Claim C9: `order_status` goes through the trading client first; a
successful primary lookup is returned as-is whatever the fallback would
have done; on any primary failure the direct venue read is attempted
and a 200 answer is returned; and when the fallback also fails (network
exception or non-200 status) the surfaced error is the combined 500
whose detail names both the primary cause and the fallback cause. -/
theorem c9_order_status_fallback :
    (∀ (cfg : Config) (key : Option String),
        authRejects cfg.sheets_secret key = false →
        (∀ order fb, order_status cfg (.ok order) fb key = .ok { ok := true, payload := order })
        ∧ (∀ e body text,
            order_status cfg (.error e) (.resp 200 body text) key =
              .ok { ok := true, payload := body })
        ∧ (∀ e e2,
            order_status cfg (.error e) (.exn e2) key =
              .error (.http 500 ("order_status failed: " ++ e ++ " | fallback: " ++ e2)))
        ∧ (∀ e status body text, status ≠ 200 →
            order_status cfg (.error e) (.resp status body text) key =
              .error (.http 500 ("order_status failed: " ++ e ++ " | fallback: " ++
                strHTTPException status (clobMsg status text)))))
    ∧ (∀ e e2, ∃ pre mid post,
        ("order_status failed: " ++ e ++ " | fallback: " ++ e2) =
          pre ++ e ++ mid ++ e2 ++ post) := by
  constructor
  · intro cfg key hauth
    refine ⟨?_, ?_, ?_, ?_⟩
    · intro order fb
      unfold order_status
      rw [hauth]
      rfl
    · intro e body text
      unfold order_status
      rw [hauth]
      rfl
    · intro e e2
      unfold order_status
      rw [hauth]
      rfl
    · intro e status body text hst
      unfold order_status
      rw [hauth]
      simp only [Bool.false_eq_true, if_false, order_status_body]
      rw [if_neg hst]
  · intro e e2
    exact ⟨"order_status failed: ", " | fallback: ", "", by simp [String.append_assoc]⟩

/-- Claim C9 (witness): the fallback conjuncts at concrete inputs —
primary success ignores the fallback, and a primary failure with a 503
fallback surfaces the combined error naming both causes. -/
theorem c9_order_status_fallback_witness :
    order_status cfgDryNoAuth (.ok (.strV "LIVE")) (.exn "unreachable") Option.none =
      .ok { ok := true, payload := .strV "LIVE" }
    ∧ order_status cfgDryNoAuth (.error "boom") (.resp 503 (.dictV []) "down") Option.none =
        .error (.http 500 ("order_status failed: " ++ "boom" ++ " | fallback: " ++
          strHTTPException 503 (clobMsg 503 "down"))) := by
  constructor
  · exact ((c9_order_status_fallback.1 cfgDryNoAuth Option.none rfl).1
      (.strV "LIVE") (.exn "unreachable"))
  · exact ((c9_order_status_fallback.1 cfgDryNoAuth Option.none rfl).2.2.2
      "boom" 503 (.dictV []) "down" (by norm_num))
